import Mathlib

set_option maxRecDepth 8000

/-!
Verification of the conversational document-orchestrator flow of the
Finacco Solutions repository (chat widget + document wizard).

The embedding below translates the client-side logic of
`src/unnamed/part_002` (the chat component whose `handleSubmit` wires the
regex intent check and the rate limiter) and
`src/src/components/TaxAssistant.tsx` (the variant whose `handleSubmit`
delegates intent classification to the generative API) into pure Lean
functions.  External platform services (the generative HTTP endpoint,
`JSON.parse`, `Date.parse`, the database) are modelled as explicit
parameters/oracles; everything the repository itself computes is embedded
directly.
-/

namespace Finacco

/-- The character class `\s` of a JavaScript regex, restricted to the ASCII
whitespace characters (space, tab, newline, carriage return, vertical tab,
form feed).  All inputs exercised below are ASCII. -/
def isJsSpace (c : Char) : Bool :=
  c = ' ' || c = '\t' || c = '\n' || c = '\r' || c = '\x0b' || c = '\x0c'

/-- JavaScript `String.prototype.trim`: remove leading and trailing
whitespace. -/
def jsTrim (s : String) : String :=
  String.mk (((s.data.dropWhile isJsSpace).reverse.dropWhile isJsSpace).reverse)

/-- Number of occurrences (at every start offset) of `pat` in `l`.
`0 < countOccs pat l` is JavaScript `l.includes(pat)`. -/
def countOccs (pat : List Char) : List Char → Nat
  | [] => if pat.isPrefixOf ([] : List Char) then 1 else 0
  | c :: rest => (if pat.isPrefixOf (c :: rest) then 1 else 0) + countOccs pat rest

/-- JavaScript `s.includes(pat)`. -/
def strIncludes (s pat : String) : Bool :=
  0 < countOccs pat.data s.data

/-- JavaScript `s.toLowerCase()` (ASCII range). -/
def toLowerStr (s : String) : String :=
  String.mk (s.data.map Char.toLower)

/-- Case-insensitive character comparison, as performed by a regex with the
`i` flag (ASCII range). -/
def eqCI (a b : Char) : Bool :=
  a.toLower = b.toLower

/-- Drop a literal pattern `pat` from the front of `l`, comparing
case-insensitively; `none` when `pat` is not a prefix. -/
def dropPrefixCI : List Char → List Char → Option (List Char)
  | [], l => some l
  | _ :: _, [] => none
  | p :: ps, c :: cs => if eqCI p c then dropPrefixCI ps cs else none

/-- Whether the list starts with a `\s` character. -/
def firstIsSpace : List Char → Bool
  | c :: _ => isJsSpace c
  | [] => false

/-- The alternation `(draft|create|generate|write)` at the start of the
input (case-insensitive).  The four keywords begin with distinct letters,
so at most one branch can match and trying them in order is faithful to
the regex engine. -/
def keywordRemainder (l : List Char) : Option (List Char) :=
  match dropPrefixCI "draft".data l with
  | some r => some r
  | none =>
    match dropPrefixCI "create".data l with
    | some r => some r
    | none =>
      match dropPrefixCI "generate".data l with
      | some r => some r
      | none => dropPrefixCI "write".data l

/-- Matcher for the document-request prefix regex
`^(draft|create|generate|write)\s+an?\s+` (flag `i`) from
`src/unnamed/part_002` (`handleSubmit` line 314, `handleDocumentRequest`
line 405).  Returns the input remainder after the matched prefix (which is
what `query.replace(regex, "")` keeps), or `none` when the regex does not
match.  The run of `\s+` before `a` is forced to be maximal because the
next character must be `a`, so greedy matching needs no backtracking. -/
def docRequestRemainder (l : List Char) : Option (List Char) :=
  match keywordRemainder l with
  | none => none
  | some r1 =>
    if firstIsSpace r1 then
      match r1.dropWhile isJsSpace with
      | c :: rest =>
        if eqCI c 'a' then
          match rest with
          | n :: rest2 =>
            if eqCI n 'n' && firstIsSpace rest2 then some (rest2.dropWhile isJsSpace)
            else if isJsSpace n then some (rest.dropWhile isJsSpace)
            else none
          | [] => none
        else none
      | [] => none
    else none

/-- `/^(draft|create|generate|write)\s+an?\s+/i.test(input)`. -/
def matchesDocRequest (s : String) : Bool :=
  (docRequestRemainder s.data).isSome

/-- `query.replace(/^(draft|create|generate|write)\s+an?\s+/i, "").trim()`
(`handleDocumentRequest`, `src/unnamed/part_002` line 405): the document
type extracted from the request. -/
def docTypeOf (s : String) : String :=
  match docRequestRemainder s.data with
  | some r => jsTrim (String.mk r)
  | none => jsTrim s

/-- The canned answer for the company-information keyword set
(`getFinaccoResponse`, first branch). -/
def aboutFinaccoResponse : String :=
  "\n**About Finacco Solutions**\n\n" ++
  "Finacco Solutions is a comprehensive financial and technology services provider offering:\n\n" ++
  "* Financial Services:\n  - GST Registration and Returns\n  - Income Tax Filing\n" ++
  "  - Business Consultancy\n  - Company & LLP Services\n  - TDS/TCS Services\n" ++
  "  - Bookkeeping Services\n\n" ++
  "* Technology Solutions:\n  - Tally Prime Solutions\n  - Data Import Tools\n" ++
  "  - Financial Statement Preparation\n  - Bank Reconciliation Tools\n" ++
  "  - Custom Software Development\n  - Web Development Services\n\n" ++
  "**Contact Information:**\n* Phone: +91 8590000761\n* Email: contact@finaccosolutions.com\n" ++
  "* Location: Mecca Tower, 2nd Floor, Court Road, Near Sree Krishna Theatre, Manjeri, Kerala-676521\n\n" ++
  "**Business Hours:**\n* Monday - Saturday: 9:30 AM - 6:00 PM\n* Sunday: Closed\n\n" ++
  "Visit our service platforms:\n" ++
  "* [Finacco Advisory](https://advisory.finaccosolutions.com) - For all financial advisory services\n" ++
  "* [Finacco Connect](https://connect.finaccosolutions.com) - For business utility software and Tally solutions\n"

/-- The canned answer for the contact-information keyword set
(`getFinaccoResponse`, second branch). -/
def contactResponse : String :=
  "\n**Contact Information for Finacco Solutions:**\n\n" ++
  "* Phone: +91 8590000761\n* Email: contact@finaccosolutions.com\n" ++
  "* Address: Mecca Tower, 2nd Floor, Court Road, Near Sree Krishna Theatre, Manjeri, Kerala-676521\n\n" ++
  "**Office Hours:**\n* Monday - Saturday: 9:30 AM - 6:00 PM\n* Sunday: Closed\n\n" ++
  "Feel free to reach out to us through WhatsApp or email for quick responses.\n"

/-- The canned answer for the Tally/Connect utility-software keyword set
(`getFinaccoResponse`, third branch). -/
def connectResponse : String :=
  "\n**Finacco Connect Services:**\n\n" ++
  "Visit [Finacco Connect](https://connect.finaccosolutions.com) for:\n" ++
  "* Tally Prime Solutions\n  - Sales and Implementation\n  - Training and Support\n" ++
  "  - Customization Services\n" ++
  "* Data Import Tools\n  - Bank Statement Import\n  - Tally Data Migration\n" ++
  "  - Excel to Tally Integration\n" ++
  "* Financial Statement Preparation\n* Bank Reconciliation Tools\n* Business Utility Software\n\n" ++
  "For detailed information or support:\n* Phone: +91 8590000761\n* Email: contact@finaccosolutions.com\n"

/-- The canned answer for the advisory/financial-services keyword set
(`getFinaccoResponse`, fourth branch). -/
def advisoryResponse : String :=
  "\n**Finacco Advisory Services:**\n\n" ++
  "Visit [Finacco Advisory](https://advisory.finaccosolutions.com) for:\n\n" ++
  "* GST Services:\n  - Registration\n  - Monthly/Quarterly Returns\n  - Annual Returns\n" ++
  "  - GST Audit Support\n  - E-way Bill Services\n\n" ++
  "* Income Tax Services:\n  - Individual Tax Filing\n  - Business Tax Returns\n" ++
  "  - Tax Planning\n  - TDS Returns\n  - Form 16/16A Generation\n\n" ++
  "* Business Services:\n  - Company Registration\n  - LLP Formation\n" ++
  "  - Business Consultancy\n  - Bookkeeping Services\n  - Financial Advisory\n\n" ++
  "Contact us for professional assistance:\n* Phone: +91 8590000761\n* Email: contact@finaccosolutions.com\n"

/-- `getFinaccoResponse` (`src/unnamed/part_002` lines 143-256, identical in
`TaxAssistant.tsx` lines 143-256): the canned-FAQ lookup.  The query is
lowercased and matched against four keyword-substring sets, in order;
returns the first matching pre-written response, `null` (here `none`)
otherwise. -/
def getFinaccoResponse (query : String) : Option String :=
  let lowerQuery := toLowerStr query
  if strIncludes lowerQuery "about finacco" || strIncludes lowerQuery "company information" ||
     strIncludes lowerQuery "finacco solutions" then
    some aboutFinaccoResponse
  else if strIncludes lowerQuery "contact" || strIncludes lowerQuery "phone" ||
     strIncludes lowerQuery "email" || strIncludes lowerQuery "address" then
    some contactResponse
  else if strIncludes lowerQuery "tally" || strIncludes lowerQuery "import" ||
     strIncludes lowerQuery "connect" || strIncludes lowerQuery "utility software" then
    some connectResponse
  else if strIncludes lowerQuery "advisory" || strIncludes lowerQuery "financial services" then
    some advisoryResponse
  else
    none

/-- `const RATE_LIMIT_WINDOW = 60000` (milliseconds). -/
def RATE_LIMIT_WINDOW : Nat := 60000

/-- `const MAX_REQUESTS_PER_WINDOW = 3`. -/
def MAX_REQUESTS_PER_WINDOW : Nat := 3

/-- Result of one `checkRateLimit()` call: the returned boolean, the new
content of the `requestTimestamps` ref, and the wait-time estimate placed
in the error banner when blocked. -/
structure RLResult where
  allowed : Bool
  timestamps : List Nat
  waitMinutes : Option Nat
  deriving Repr, DecidableEq

/-- `checkRateLimit` (`src/unnamed/part_002` lines 711-728, identical in
`TaxAssistant.tsx` lines 877-894 and `DocumentGenerator.tsx`).  `now` is
`Date.now()`; `ts` is the current `requestTimestamps.current` list.  The
list is first pruned to entries younger than the window; if at least
`MAX_REQUESTS_PER_WINDOW` remain the call is blocked with an estimate of
`Math.ceil(timeUntilReset / 60000)` minutes, otherwise `now` is appended
and the call is allowed.  `pruned.headD 0` is the array access
`requestTimestamps.current[0]`, defined because the blocked branch has at
least 3 entries. -/
def checkRateLimit (now : Nat) (ts : List Nat) : RLResult :=
  let pruned := ts.filter (fun timestamp => now - timestamp < RATE_LIMIT_WINDOW)
  if MAX_REQUESTS_PER_WINDOW ≤ pruned.length then
    let oldestTimestamp := pruned.headD 0
    let timeUntilReset := RATE_LIMIT_WINDOW - (now - oldestTimestamp)
    { allowed := false, timestamps := pruned,
      waitMinutes := some ((timeUntilReset + 59999) / 60000) }
  else
    { allowed := true, timestamps := pruned ++ [now], waitMinutes := none }

/-- The control path taken by one invocation of `handleSubmit` in
`src/unnamed/part_002` (lines 291-401). -/
inductive SubmitPath where
  /-- The early `return` at line 294 (`!input.trim() || isLoading`). -/
  | rejected : SubmitPath
  /-- The early `return` at line 296 (`!checkRateLimit()`). -/
  | rateLimited : SubmitPath
  /-- The document-wizard branch (line 314): `handleDocumentRequest` is
  entered with the extracted document type and `handleSubmit` returns. -/
  | documentWizard (docType : String) : SubmitPath
  /-- The canned-FAQ branch (lines 320-333): the matched response is posted
  (after display formatting) and `handleSubmit` returns. -/
  | canned (response : String) : SubmitPath
  /-- The general-chat branch (lines 346 onwards): the completion request
  is sent to the generative endpoint. -/
  | general : SubmitPath
  deriving Repr, DecidableEq

/-- Result of one `handleSubmit` invocation in `src/unnamed/part_002`:
the path taken, the `requestTimestamps` ref afterwards, and the wait-time
estimate shown when rate-limited. -/
structure SubmitResult where
  path : SubmitPath
  timestamps : List Nat
  waitMinutes : Option Nat
  deriving Repr, DecidableEq

/-- `handleSubmit` of `src/unnamed/part_002` (lines 291-401), up to the
choice of branch.  Guards run in source order: empty-after-trim input or a
pending request rejects the submission; then `checkRateLimit` may block
it; then the document-request regex is tested against `input`; then the
canned-FAQ lookup; otherwise the general completion request is issued.
The message-list/history side effects inside each branch are not needed by
the claims about this function and are modelled separately. -/
def handleSubmitP2 (input : String) (isLoading : Bool) (now : Nat) (ts : List Nat) :
    SubmitResult :=
  if jsTrim input = "" || isLoading then
    { path := .rejected, timestamps := ts, waitMinutes := none }
  else
    let r := checkRateLimit now ts
    if r.allowed then
      if matchesDocRequest input then
        { path := .documentWizard (docTypeOf input), timestamps := r.timestamps,
          waitMinutes := none }
      else
        match getFinaccoResponse input with
        | some response =>
          { path := .canned response, timestamps := r.timestamps, waitMinutes := none }
        | none =>
          { path := .general, timestamps := r.timestamps, waitMinutes := none }
    else
      { path := .rateLimited, timestamps := r.timestamps, waitMinutes := r.waitMinutes }

/-- Number of generative-API network calls issued by `handleSubmit` of
`src/unnamed/part_002` on each path, before control returns: the rejected
and rate-limited returns and the canned branch perform no fetch; the
wizard branch fetches the field schema once; the general branch fetches
the completion once. -/
def networkCallsP2 : SubmitPath → Nat
  | .rejected => 0
  | .rateLimited => 0
  | .documentWizard _ => 1
  | .canned _ => 0
  | .general => 1

/-- The control path taken by one invocation of `handleSubmit` in
`TaxAssistant.tsx` (lines 291-381), together with the number of
generative-API network calls issued for the message. -/
inductive TAPath where
  /-- The early `return` at line 294. -/
  | rejected : TAPath
  /-- `checkIfDocumentRequest` answered `true`: `handleDocumentRequest`
  is entered. -/
  | documentWizard : TAPath
  /-- `getFinaccoResponse` matched: the canned response is posted. -/
  | canned (response : String) : TAPath
  /-- The general completion request is issued. -/
  | general : TAPath
  deriving Repr, DecidableEq

/-- The decision of `checkIfDocumentRequest` (`TaxAssistant.tsx` lines
383-410): the message is POSTed to the generative endpoint and the reply
compared with the literal `"true"`; a thrown fetch/parse error yields
`false`.  `classifier` is the external reply: `.error` models a thrown
error, `.ok s` the trimmed lowercased reply text. -/
def checkIfDocumentRequest (classifier : Except Unit String) : Bool :=
  match classifier with
  | .ok s => s == "true"
  | .error _ => false

/-- `handleSubmit` of `TaxAssistant.tsx` (lines 291-381), up to the choice
of branch.  Unlike the `part_002` variant it never calls `checkRateLimit`
and classifies document intent by awaiting `checkIfDocumentRequest` -
whose network call is issued before the canned-FAQ lookup is consulted. -/
def handleSubmitTA (input : String) (isLoading : Bool) (classifier : Except Unit String) :
    TAPath :=
  if jsTrim input = "" || isLoading then
    .rejected
  else
    let isDocRequest : Bool := checkIfDocumentRequest classifier
    if isDocRequest then
      .documentWizard
    else
      match getFinaccoResponse input with
      | some response => .canned response
      | none => .general

/-- Network calls issued for one message by `handleSubmit` of
`TaxAssistant.tsx`: every non-rejected submission first awaits
`checkIfDocumentRequest`, whose `fetch` to the generative endpoint counts
as one call; the wizard branch then fetches the field schema, and the
general branch fetches the completion.  Only the canned branch stops
after the classification call. -/
def networkCallsTA (p : TAPath) : Nat :=
  match p with
  | .rejected => 0
  | .documentWizard => 1 + 1
  | .canned _ => 1
  | .general => 1 + 1

/-- First step of `formatFieldLabel` (`TaxAssistant.tsx` lines 624-629):
`key.replace(/([A-Z])/g, " $1")` inserts a space before every ASCII
uppercase letter. -/
def expandUppercase (l : List Char) : List Char :=
  l.flatMap (fun c => if c.isUpper then [' ', c] else [c])

/-- Second step: `.replace(/^./, str => str.toUpperCase())` uppercases the
first character; `.` does not match a line terminator. -/
def upperFirst : List Char → List Char
  | [] => []
  | c :: r => if c = '\n' || c = '\r' then c :: r else c.toUpper :: r

/-- Third step: `.replace(/([a-z])([A-Z])/g, "$1 $2")` puts a space between
every lower-upper adjacency.  The regex engine resumes after each match;
since `$2` is uppercase it can never start the next match, so resuming at
`b` is equivalent. -/
def spaceLowerUpper : List Char → List Char
  | a :: b :: r =>
    if a.isLower && b.isUpper then a :: ' ' :: spaceLowerUpper (b :: r)
    else a :: spaceLowerUpper (b :: r)
  | l => l

/-- `formatFieldLabel` (`TaxAssistant.tsx` lines 624-629): turns a form
field key into a section heading. -/
def formatFieldLabel (key : String) : String :=
  String.mk (spaceLowerUpper (upperFirst (expandUppercase key.data)))

/-- JavaScript `Array.prototype.join("")` on a list of strings. -/
def joinStr : List String → String
  | [] => ""
  | s :: rest => s ++ joinStr rest

/-- JavaScript `value.split("\n")` on the character list. -/
def splitNl : List Char → List (List Char)
  | [] => [[]]
  | c :: r =>
    if c = '\n' then [] :: splitNl r
    else
      match splitNl r with
      | s :: ss => (c :: s) :: ss
      | [] => [[c]]

/-- `value.split("\n").map(para => "<p>" + para + "</p>").join("")`
(`generateFallbackDocument`, `TaxAssistant.tsx` line 603). -/
def paragraphs (value : String) : String :=
  joinStr ((splitNl value.data).map (fun para => "<p>" ++ String.mk para ++ "</p>"))

/-- The fixed part of the fallback template before the data sections
(`generateFallbackDocument`, `TaxAssistant.tsx` lines 571-597), with the
uppercased document type and the formatted current date interpolated.
Braces of the CSS are written `\x7b`/`\x7d`. -/
def fallbackHeader (docTypeUpper currentDate : String) : String :=
  "\n    <!DOCTYPE html>\n    <html>\n    <head>\n      <meta charset=\"UTF-8\">\n      <style>\n" ++
  "        body \x7b font-family: Arial, sans-serif; line-height: 1.6; color: #333; \x7d\n" ++
  "        .document \x7b max-width: 800px; margin: 0 auto; padding: 30px; \x7d\n" ++
  "        .header \x7b text-align: center; margin-bottom: 30px; border-bottom: 2px solid #eee; padding-bottom: 20px; \x7d\n" ++
  "        h1 \x7b color: #2c3e50; margin-bottom: 10px; \x7d\n" ++
  "        .section \x7b margin-bottom: 25px; \x7d\n" ++
  "        .section-title \x7b border-bottom: 1px solid #eee; padding-bottom: 5px; margin-bottom: 15px; color: #2c3e50; \x7d\n" ++
  "        .field \x7b margin-bottom: 15px; \x7d\n" ++
  "        .field-label \x7b font-weight: bold; display: block; margin-bottom: 5px; \x7d\n" ++
  "        .signatures \x7b display: flex; justify-content: space-between; margin-top: 50px; padding-top: 20px; border-top: 1px solid #eee; \x7d\n" ++
  "        .signature-box \x7b width: 45%; \x7d\n" ++
  "        .signature-line \x7b border-top: 1px solid #ccc; margin-top: 30px; padding-top: 5px; \x7d\n" ++
  "      </style>\n    </head>\n    <body>\n      <div class=\"document\">\n        <div class=\"header\">\n          <h1>" ++
  docTypeUpper ++
  "</h1>\n          <p>Date: " ++ currentDate ++ "</p>\n        </div>\n        \n        "

/-- One data section of the fallback template (`TaxAssistant.tsx` lines
597-606): the formatted field label as heading, the value split into
paragraphs. -/
def fallbackSection (key value : String) : String :=
  "\n            <div class=\"section\">\n              <h3 class=\"section-title\">" ++
  formatFieldLabel key ++
  "</h3>\n              <div class=\"field-content\">\n                " ++
  paragraphs value ++
  "\n              </div>\n            </div>\n          "

/-- The fixed tail of the fallback template (`TaxAssistant.tsx` lines
607-621): signature blocks and closing tags. -/
def fallbackFooter : String :=
  "\n        \n        <div class=\"signatures\">\n          <div class=\"signature-box\">\n            <div class=\"signature-line\">Authorized Signature</div>\n            <p>Date: _______________</p>\n          </div>\n          <div class=\"signature-box\">\n            <div class=\"signature-line\">Recipient Signature</div>\n            <p>Date: _______________</p>\n          </div>\n        </div>\n      </div>\n    </body>\n    </html>\n  "

/-- `generateFallbackDocument` (`TaxAssistant.tsx` lines 564-622): the
deterministic fallback template.  `data` is `Object.entries` of the form
data in insertion order; entries with an empty (falsy) value are filtered
out; `currentDate` is the `toLocaleDateString` rendering of the current
date. -/
def generateFallbackDocument (data : List (String × String)) (docType currentDate : String) :
    String :=
  fallbackHeader (String.mk (docType.data.map Char.toUpper)) currentDate ++
  joinStr ((data.filter (fun kv => kv.2 ≠ "")).map (fun kv => fallbackSection kv.1 kv.2)) ++
  fallbackFooter

/-- `generateDocument` (`TaxAssistant.tsx` lines 506-522).  `aiResult`
models the awaited `generateWithAI` call: `.error` when it throws (network
failure, non-ok response, missing response text), `.ok s` with the trimmed
returned content otherwise.  A thrown or falsy (empty) AI result degrades
to `generateFallbackDocument`. -/
def generateDocument (aiResult : Except Unit String) (data : List (String × String))
    (docType currentDate : String) : String :=
  match aiResult with
  | .ok aiContent =>
    if aiContent ≠ "" then aiContent else generateFallbackDocument data docType currentDate
  | .error _ => generateFallbackDocument data docType currentDate

/-- The input types of a `DocumentField` (`TaxAssistant.tsx` lines 28-35;
`textarea` additionally appears in `getDefaultFields` and in the schema
prompt). -/
inductive FieldType where
  | text | email | tel | date | number | textarea
  deriving Repr, DecidableEq

/-- The `DocumentField` interface (`TaxAssistant.tsx` lines 28-35). -/
structure DocumentField where
  id : String
  label : String
  type : FieldType
  required : Bool
  placeholder : Option String := none
  description : Option String := none
  deriving Repr, DecidableEq

/-- `getDefaultFields` (`TaxAssistant.tsx` lines 476-504): the fixed
fallback field set used when the AI-proposed schema is unusable. -/
def getDefaultFields (docType : String) : List DocumentField :=
  [ { id := "title", label := "Document Title", type := .text, required := true,
      placeholder := some ("Enter " ++ docType ++ " title") },
    { id := "parties", label := "Parties Involved", type := .textarea, required := true,
      placeholder := some "List all parties involved" },
    { id := "details", label := "Document Details", type := .textarea, required := true,
      placeholder := some "Enter all relevant details" },
    { id := "date", label := "Effective Date", type := .date, required := true } ]

/-- The regex `/{[\s\S]*}/` applied by `handleDocumentRequest`
(`TaxAssistant.tsx` line 452) to the schema response text: the match, if
any, runs from the first `\x7b` to the last `\x7d` after it (greedy
`[\s\S]*`). -/
def extractJsonBlock (l : List Char) : Option (List Char) :=
  match l.dropWhile (fun c => c ≠ '\x7b') with
  | '\x7b' :: rest =>
    match rest.reverse.dropWhile (fun c => c ≠ '\x7d') with
    | '\x7d' :: revBody => some ('\x7b' :: (revBody.reverse ++ ['\x7d']))
    | _ => none
  | _ => none

/-- Outcome of the field-schema setup step of the wizard. -/
inductive WizardSetup where
  /-- The wizard shows the form with these fields (`setFormFields`,
  `setShowForm(true)`). -/
  | proceeds (fields : List DocumentField) : WizardSetup
  /-- The `catch` block runs: the error banner is set and the wizard is
  torn down (`setIsDocumentMode(false)`, `setShowForm(false)`). -/
  | aborted (err : String) : WizardSetup
  deriving Repr, DecidableEq

/-- The schema-parsing portion of `handleDocumentRequest` in
`TaxAssistant.tsx` (lines 450-472).  `resultText` is the schema response
text from the generative API.  `jsonParse` models the platform
`JSON.parse` composed with the `result.fields` property access: `none`
when `JSON.parse` throws on the matched block, `some none` when it parses
but `result.fields` is absent or null (so `result.fields.length` throws),
and `some (some fs)` when `result.fields` is an array.  When the regex
finds no block, the code substitutes `\x7b fields: [] \x7d`, whose empty
list makes `result.fields.length > 0` false, selecting
`getDefaultFields`; likewise for a parsed empty array.  A throw anywhere
lands in the `catch` block, which aborts the wizard. -/
def wizardFieldsTA (resultText docType : String)
    (jsonParse : String → Option (Option (List DocumentField))) : WizardSetup :=
  match extractJsonBlock resultText.data with
  | none => .proceeds (getDefaultFields docType)
  | some block =>
    match jsonParse (String.mk block) with
    | none => .aborted "Failed to set up document form. Please try again."
    | some none => .aborted "Failed to set up document form. Please try again."
    | some (some fields) =>
      .proceeds (if fields.length > 0 then fields else getDefaultFields docType)

/-- The character class `[^\s@]` of the email regex. -/
def okEmailChar (c : Char) : Bool :=
  !(isJsSpace c) && c ≠ '@'

/-- The email validation regex `/^[^\s@]+@[^\s@]+\.[^\s@]+$/`
(`validateForm`, `TaxAssistant.tsx` line 702): a nonempty run of
non-space non-`@` characters, one `@`, then a domain of such characters
containing a dot that has at least one character on each side.  Splitting
at the first `@` is faithful because the class `[^\s@]` excludes `@`. -/
def emailRegexTest (s : String) : Bool :=
  let l := s.data
  let localPart := l.takeWhile (fun c => c ≠ '@')
  match l.dropWhile (fun c => c ≠ '@') with
  | '@' :: domain =>
    localPart ≠ [] && localPart.all okEmailChar &&
    domain.all okEmailChar && ((domain.drop 1).dropLast).contains '.'
  | _ => false

/-- The phone validation regex `/^\+?[\d\s-()]+$/` (`validateForm`,
`TaxAssistant.tsx` line 707). -/
def telRegexTest (s : String) : Bool :=
  match s.data with
  | '+' :: rest => rest ≠ [] && rest.all (fun c => c.isDigit || isJsSpace c || c = '-' || c = '(' || c = ')')
  | l => l ≠ [] && l.all (fun c => c.isDigit || isJsSpace c || c = '-' || c = '(' || c = ')')

/-- `data[field.id]` on the form-data record, modelled as an association
list in insertion order. -/
def lookupStr (data : List (String × String)) (k : String) : Option String :=
  (data.find? (fun kv => kv.1 = k)).map (fun kv => kv.2)

/-- The per-field body of the `fields.forEach` loop of `validateForm`
(`TaxAssistant.tsx` lines 694-723): the error string recorded for the
field, if any.  `Date.parse` and `Number` are platform functions and are
supplied as the oracles `dateParseOk`/`numberOk` (the `!isNaN(...)`
checks); the email and phone regexes are embedded above. -/
def fieldError (dateParseOk numberOk : String → Bool) (data : List (String × String))
    (field : DocumentField) : Option String :=
  let value := jsTrim ((lookupStr data field.id).getD "")
  if field.required && value == "" then
    some (field.label ++ " is required")
  else if value ≠ "" then
    match field.type with
    | .email => if emailRegexTest value then none else some "Please enter a valid email address"
    | .tel => if telRegexTest value then none else some "Please enter a valid phone number"
    | .date => if dateParseOk value then none else some "Please enter a valid date"
    | .number => if numberOk value then none else some "Please enter a valid number"
    | _ => none
  else
    none

/-- `validateForm` (`TaxAssistant.tsx` lines 691-727, identical in
`src/unnamed/part_002` lines 490-526): collects the per-field errors (the
`errors` object written to `setFormErrors`) and returns
`Object.keys(errors).length === 0`. -/
def validateForm (dateParseOk numberOk : String → Bool) (data : List (String × String))
    (fields : List DocumentField) : List (String × String) × Bool :=
  let errors := fields.filterMap
    (fun f => (fieldError dateParseOk numberOk data f).map (fun msg => (f.id, msg)))
  (errors, errors.isEmpty)

/-- Modelled from the claim wording of C6: a value that contains exactly
one `@` followed by a domain with a dot suffix (the domain is nonempty
and has a dot with at least one character after it).  Stated from the
specification, to be compared against the validation the code performs. -/
def specEmailShape (s : String) : Bool :=
  s.data.count '@' == 1 &&
  (let domain := (s.data.dropWhile (fun c => c ≠ '@')).drop 1
   domain ≠ [] && domain.dropLast.contains '.')

/-- The `title` computed by `saveToHistory` on insert
(`src/unnamed/part_002` line 765, `TaxAssistant.tsx` line 931):
`input.length > 100 ? input.slice(0, 100) + "..." : input`.  JavaScript
`.length`/`.slice` count UTF-16 code units; the embedding counts
characters, which agrees on the ASCII inputs considered. -/
def deriveTitle (input : String) : String :=
  if input.length > 100 then String.mk (input.data.take 100) ++ "..." else input

/-- The submission-relevant component state of the chat widget: the
`isLoading` flag and the number of exchanges currently in flight (requests
started and not yet settled). -/
structure ChatState where
  isLoading : Bool
  inFlight : Nat
  deriving Repr, DecidableEq

/-- Events of the submit step relation: a submission attempt (with its
input text and the rate-limiter verdict) or the settling of an in-flight
request (the `finally` block running `setIsLoading(false)`). -/
inductive ChatEvent where
  | submit (input : String) (rateOk : Bool) : ChatEvent
  | settle : ChatEvent
  deriving Repr

/-- Initial component state: `useState(false)` for `isLoading`, nothing in
flight. -/
def initChatState : ChatState :=
  { isLoading := false, inFlight := 0 }

/-- The submit step relation of `handleSubmit` (`src/unnamed/part_002`
lines 291-299 and 397-400, `TaxAssistant.tsx` lines 291-297 and 377-380):
a submission with empty-after-trim input, or while `isLoading`, or blocked
by the rate limiter, leaves the state unchanged (the handler returns
before `setIsLoading(true)`); an accepted submission sets `isLoading` and
starts one exchange; a settle event runs the `finally` block of the
oldest in-flight exchange, clearing `isLoading`. -/
def stepChat (s : ChatState) : ChatEvent → ChatState
  | .submit input rateOk =>
    if jsTrim input = "" || s.isLoading then s
    else if !rateOk then s
    else { isLoading := true, inFlight := s.inFlight + 1 }
  | .settle =>
    if s.inFlight = 0 then s
    else { isLoading := false, inFlight := s.inFlight - 1 }

/-- The `Message` interface (`TaxAssistant.tsx` lines 10-18). -/
structure Message where
  id : String
  role : String
  content : String
  timestamp : String
  name : Option String := none
  isTyping : Option Bool := none
  isDocument : Option Bool := none
  deriving Repr, DecidableEq

/-- The `ChatHistory` interface (`TaxAssistant.tsx` lines 20-26), one row
of the `chat_histories` table. -/
structure ChatHistory where
  id : String
  title : String
  messages : List Message
  created_at : String
  user_id : String
  deriving Repr, DecidableEq

/-- `saveToHistory` (`TaxAssistant.tsx` lines 916-942, identical in
`src/unnamed/part_002` lines 750-776) against a store modelled as the list
of `chat_histories` rows.  With a current chat id the row with that id
gets its message list replaced wholesale (`update ... eq('id',
currentChatId)`); otherwise a new row is inserted with the
`deriveTitle`-derived title, and the database-generated id `newId` and
creation timestamp `createdAt` become the current chat id
(`setCurrentChatId(newChat.id)`).  Returns the new store and current chat
id. -/
def saveToHistory (store : List ChatHistory) (currentChatId : Option String)
    (messages : List Message) (input userId newId createdAt : String) :
    List ChatHistory × Option String :=
  match currentChatId with
  | some cid =>
    (store.map (fun row => if row.id = cid then { row with messages := messages } else row),
     some cid)
  | none =>
    (store ++ [{ id := newId, title := deriveTitle input, messages := messages,
                 created_at := createdAt, user_id := userId }],
     some newId)

/-- Row retrieval by id from the modelled `chat_histories` store. -/
def findChat (store : List ChatHistory) (chatId : String) : Option ChatHistory :=
  store.find? (fun row => row.id = chatId)

/-- `loadChat` (`TaxAssistant.tsx` lines 906-914): the message list the
UI displays after selecting a stored conversation
(`setMessages(chat.messages)`). -/
def loadChat (chat : ChatHistory) : List Message :=
  chat.messages

/-! ## Helper lemmas -/

theorem countOccs_pos_of_infix {pat l : List Char} (hne : pat ≠ []) (h : pat <:+: l) :
    0 < countOccs pat l := by
  induction l with
  | nil => rw [List.infix_nil] at h; exact absurd h hne
  | cons c rest ih =>
    rcases List.infix_cons_iff.mp h with hpre | hinf
    · have hp : pat.isPrefixOf (c :: rest) = true := List.isPrefixOf_iff_prefix.mpr hpre
      simp [countOccs, hp]
    · have := ih hinf
      simp only [countOccs]
      omega

theorem infix_joinStr {s : String} {l : List String} (h : s ∈ l) :
    s.data <:+: (joinStr l).data := by
  induction l with
  | nil => exact absurd h (List.not_mem_nil s)
  | cons a rest ih =>
    rcases List.mem_cons.mp h with rfl | hmem
    · rw [joinStr, String.data_append]
      exact (List.prefix_append s.data (joinStr rest).data).isInfix
    · obtain ⟨u, w, huw⟩ := ih hmem
      exact ⟨a.data ++ u, w, by rw [joinStr, String.data_append, ← huw]; simp⟩

theorem infix_data_of_append_append (a b : String) {x y : String} (h : x.data <:+: y.data) :
    x.data <:+: (a ++ y ++ b).data := by
  obtain ⟨u, w, huw⟩ := h
  exact ⟨a.data ++ u, w ++ b.data, by simp [String.data_append, ← huw]⟩

theorem splitNl_eq_self {l : List Char} (h : '\n' ∉ l) : splitNl l = [l] := by
  induction l with
  | nil => rfl
  | cons c rest ih =>
    have hc : ¬ c = '\n' := fun hc => h (hc ▸ List.mem_cons_self c rest)
    have hr : '\n' ∉ rest := fun hm => h (List.mem_cons_of_mem c hm)
    rw [splitNl, if_neg hc, ih hr]

/-- Under the non-empty-input guard, `handleSubmit` of `src/unnamed/part_002`
always leaves the timestamp ref exactly as `checkRateLimit` did. -/
theorem handleSubmitP2_timestamps (input : String) (now : Nat) (ts : List Nat)
    (h : jsTrim input ≠ "") :
    (handleSubmitP2 input false now ts).timestamps = (checkRateLimit now ts).timestamps := by
  simp only [handleSubmitP2]
  rw [if_neg (by simp [h])]
  split
  · split
    · rfl
    · split <;> rfl
  · rfl

/-- Under the guards, an allowed `checkRateLimit` verdict means the
submission is neither rejected nor rate limited. -/
theorem handleSubmitP2_path_allowed (input : String) (now : Nat) (ts : List Nat)
    (h : jsTrim input ≠ "")
    (hall : (checkRateLimit now ts).allowed = true) :
    (handleSubmitP2 input false now ts).path ≠ SubmitPath.rateLimited ∧
    (handleSubmitP2 input false now ts).path ≠ SubmitPath.rejected := by
  simp only [handleSubmitP2]
  rw [if_neg (by simp [h]), if_pos hall]
  constructor
  · split
    · simp
    · split <;> simp
  · split
    · simp
    · split <;> simp

/-- Under the guards, a blocked `checkRateLimit` verdict makes the
submission take the rate-limited early return, propagating the wait-time
estimate. -/
theorem handleSubmitP2_path_blocked (input : String) (now : Nat) (ts : List Nat)
    (h : jsTrim input ≠ "") (hblk : (checkRateLimit now ts).allowed = false) :
    (handleSubmitP2 input false now ts).path = SubmitPath.rateLimited ∧
    (handleSubmitP2 input false now ts).waitMinutes = (checkRateLimit now ts).waitMinutes := by
  simp only [handleSubmitP2]
  rw [if_neg (by simp [h]), if_neg (by simp [hblk])]
  exact ⟨rfl, rfl⟩

/-- `checkRateLimit` permits the call whenever fewer than
`MAX_REQUESTS_PER_WINDOW` timestamps survive pruning, appending `now`. -/
theorem checkRateLimit_allowed_of_short (now : Nat) (ts : List Nat)
    (h : (ts.filter (fun timestamp => now - timestamp < RATE_LIMIT_WINDOW)).length <
      MAX_REQUESTS_PER_WINDOW) :
    (checkRateLimit now ts).allowed = true ∧
    (checkRateLimit now ts).timestamps =
      ts.filter (fun timestamp => now - timestamp < RATE_LIMIT_WINDOW) ++ [now] := by
  simp only [checkRateLimit]
  rw [if_neg (by omega)]
  exact ⟨rfl, rfl⟩

/-! ## C1: document-request regex routes to the wizard (part_002) -/

/-- Claim C1: a submitted message matching the document-request prefix
regex `/^(draft|create|generate|write)\s+an?\s+/i` makes `handleSubmit`
(`src/unnamed/part_002`) enter the document-wizard path with the
extracted document type, and return without taking the canned-FAQ branch
or the general-chat completion branch. -/
theorem docRequest_enters_wizard (input : String) (now : Nat) (ts : List Nat)
    (hinput : jsTrim input ≠ "")
    (hrl : (checkRateLimit now ts).allowed = true)
    (hmatch : matchesDocRequest input = true) :
    (handleSubmitP2 input false now ts).path = SubmitPath.documentWizard (docTypeOf input) ∧
    (∀ r, (handleSubmitP2 input false now ts).path ≠ SubmitPath.canned r) ∧
    (handleSubmitP2 input false now ts).path ≠ SubmitPath.general := by
  simp only [handleSubmitP2]
  rw [if_neg (by simp [hinput]), if_pos hrl, if_pos hmatch]
  simp

/-- Witness for C1 at the concrete submission "draft an agreement" from a
fresh session. -/
theorem docRequest_enters_wizard_witness :
    (handleSubmitP2 "draft an agreement" false 0 []).path =
      SubmitPath.documentWizard (docTypeOf "draft an agreement") ∧
    (∀ r, (handleSubmitP2 "draft an agreement" false 0 []).path ≠ SubmitPath.canned r) ∧
    (handleSubmitP2 "draft an agreement" false 0 []).path ≠ SubmitPath.general :=
  docRequest_enters_wizard "draft an agreement" 0 [] (by decide) (by decide) (by decide)

/-! ## C3: canned-FAQ answers and network calls -/

/-- Counterexample to claim C3 as stated: in the `handleSubmit` of
`TaxAssistant.tsx` (the claimed code), the message "contact" matches the
contact-information keyword set and receives the canned response, yet one
network call - the `checkIfDocumentRequest` classification fetch - is
issued for the message before the canned lookup, so "without any network
call" fails. -/
theorem canned_response_issues_classifier_call :
    handleSubmitTA "contact" false (Except.error ()) = TAPath.canned contactResponse ∧
    networkCallsTA (handleSubmitTA "contact" false (Except.error ())) = 1 ∧
    networkCallsTA (handleSubmitTA "contact" false (Except.error ())) ≠ 0 :=
  ⟨rfl, rfl, by decide⟩

/-- Claim C3 as amended: a submitted message matching a canned-FAQ keyword
set (and not classified as a document request) receives the corresponding
static response; no general-chat completion call is issued for it.  In the
`part_002` variant, whose intent check is the pure regex, the canned
branch issues no network call at all; in the `TaxAssistant.tsx` variant
exactly the one intent-classification call is issued. -/
theorem canned_response_paths (input : String) (now : Nat) (ts : List Nat)
    (c : Except Unit String) (r : String)
    (hinput : jsTrim input ≠ "")
    (hfa : getFinaccoResponse input = some r)
    (hdoc : matchesDocRequest input = false)
    (hrl : (checkRateLimit now ts).allowed = true)
    (hcls : checkIfDocumentRequest c = false) :
    (handleSubmitP2 input false now ts).path = SubmitPath.canned r ∧
    networkCallsP2 (handleSubmitP2 input false now ts).path = 0 ∧
    handleSubmitTA input false c = TAPath.canned r ∧
    networkCallsTA (handleSubmitTA input false c) = 1 := by
  refine ⟨?_, ?_, ?_, ?_⟩ <;>
    simp [handleSubmitP2, handleSubmitTA, hinput, hfa, hdoc, hrl, hcls, networkCallsP2,
      networkCallsTA]

/-- Witness for the amended C3 at the concrete message "contact". -/
theorem canned_response_paths_witness :
    (handleSubmitP2 "contact" false 0 []).path = SubmitPath.canned contactResponse ∧
    networkCallsP2 (handleSubmitP2 "contact" false 0 []).path = 0 ∧
    handleSubmitTA "contact" false (Except.error ()) = TAPath.canned contactResponse ∧
    networkCallsTA (handleSubmitTA "contact" false (Except.error ())) = 1 :=
  canned_response_paths "contact" 0 [] (Except.error ()) contactResponse
    (by decide) rfl (by decide) (by decide) rfl

/-! ## C7: chat title derivation -/

/-- Counterexample to claim C7 as stated: for a 101-character first
message, the stored title is the first 100 characters plus "...", i.e.
103 characters - not "truncated to 100 characters". -/
theorem deriveTitle_exceeds_100 :
    (deriveTitle (String.mk (List.replicate 101 'a'))).length = 103 ∧
    ¬ (deriveTitle (String.mk (List.replicate 101 'a'))).length ≤ 100 := by
  constructor
  · rfl
  · decide

/-- Claim C7 as amended: messages of length at most 100 are stored
verbatim as the title; a longer message yields the first 100 characters
of the message followed by "...", a title of exactly 103 characters. -/
theorem deriveTitle_truncation (input : String) :
    (input.length ≤ 100 → deriveTitle input = input) ∧
    (100 < input.length →
      deriveTitle input = String.mk (input.data.take 100) ++ "..." ∧
      (deriveTitle input).length = 103) := by
  constructor
  · intro h
    unfold deriveTitle
    rw [if_neg (by omega)]
  · intro h
    unfold deriveTitle
    rw [if_pos (by omega)]
    refine ⟨rfl, ?_⟩
    rw [String.length_append, String.length_mk, List.length_take]
    have h3 : ("..." : String).length = 3 := rfl
    have hlen : input.data.length = input.length := rfl
    rw [h3]
    omega

/-- Witness for the amended C7 at a short and a long concrete message. -/
theorem deriveTitle_truncation_witness :
    deriveTitle "hello" = "hello" ∧
    (deriveTitle (String.mk (List.replicate 150 'b'))).length = 103 :=
  ⟨(deriveTitle_truncation "hello").1 (by decide),
   ((deriveTitle_truncation (String.mk (List.replicate 150 'b'))).2 (by decide)).2⟩

/-! ## C8: at most one exchange in flight -/

theorem stepChat_preserves_inv (s : ChatState) (e : ChatEvent)
    (h1 : s.inFlight ≤ 1) (h2 : s.isLoading = false → s.inFlight = 0) :
    (stepChat s e).inFlight ≤ 1 ∧
    ((stepChat s e).isLoading = false → (stepChat s e).inFlight = 0) := by
  obtain ⟨l, n⟩ := s
  cases e with
  | submit input rateOk =>
    cases l with
    | true => simpa [stepChat] using h1
    | false =>
      have h0 : n = 0 := h2 rfl
      subst h0
      by_cases he : jsTrim input = ""
      · simp [stepChat, he]
      · cases rateOk with
        | false => simp [stepChat, he]
        | true => simp [stepChat, he]
  | settle =>
    cases n with
    | zero => simp [stepChat]
    | succ m =>
      have h1' : m + 1 ≤ 1 := h1
      simp [stepChat]
      omega

theorem foldl_stepChat_inv (evs : List ChatEvent) (s : ChatState)
    (h1 : s.inFlight ≤ 1) (h2 : s.isLoading = false → s.inFlight = 0) :
    (List.foldl stepChat s evs).inFlight ≤ 1 ∧
    ((List.foldl stepChat s evs).isLoading = false →
      (List.foldl stepChat s evs).inFlight = 0) := by
  induction evs generalizing s with
  | nil => exact ⟨h1, h2⟩
  | cons e rest ih =>
    have := stepChat_preserves_inv s e h1 h2
    simpa [List.foldl_cons] using ih (stepChat s e) this.1 this.2

/-- Claim C8: along every event sequence of the submit step relation from
the initial component state, at most one exchange is ever in flight; and
while `isLoading` holds, any submission attempt leaves the state
unchanged (the handler returns before starting a request). -/
theorem atMostOne_inFlight (evs : List ChatEvent) :
    (List.foldl stepChat initChatState evs).inFlight ≤ 1 ∧
    ∀ (s : ChatState) (input : String) (rateOk : Bool),
      s.isLoading = true → stepChat s (ChatEvent.submit input rateOk) = s := by
  refine ⟨(foldl_stepChat_inv evs initChatState (by simp [initChatState])
    (fun _ => by simp [initChatState])).1, ?_⟩
  intro s input rateOk h
  unfold stepChat
  simp [h]

/-- Witness for C8: a concrete event trace, and a concrete loading state
rejecting a submission. -/
theorem atMostOne_inFlight_witness :
    (List.foldl stepChat initChatState
      [ChatEvent.submit "hi" true, ChatEvent.settle, ChatEvent.submit "again" true]).inFlight ≤ 1 ∧
    stepChat { isLoading := true, inFlight := 1 } (ChatEvent.submit "hi" true) =
      { isLoading := true, inFlight := 1 } :=
  ⟨(atMostOne_inFlight [ChatEvent.submit "hi" true, ChatEvent.settle,
      ChatEvent.submit "again" true]).1,
   (atMostOne_inFlight []).2 { isLoading := true, inFlight := 1 } "hi" true rfl⟩

/-! ## C2: rolling-window rate limiting of submissions -/

/-- Claim C2: starting from a fresh session, three submissions inside one
60-second window are all admitted; a fourth submission inside the window
of the oldest timestamp is blocked by `checkRateLimit` before any network
call, with a positive wait-time estimate; and once the window has elapsed
for the oldest timestamp, the next submission is admitted again.  The
intermediate results `r1`-`r5` are pinned by the equation hypotheses. -/
theorem rateLimit_blocks_fourth_submission
    (i1 i2 i3 i4 i5 : String) (t1 t2 t3 t4 t5 : Nat) (r1 r2 r3 r4 r5 : SubmitResult)
    (h1 : jsTrim i1 ≠ "") (h2 : jsTrim i2 ≠ "") (h3 : jsTrim i3 ≠ "")
    (h4 : jsTrim i4 ≠ "") (h5 : jsTrim i5 ≠ "")
    (o12 : t1 ≤ t2) (o23 : t2 ≤ t3) (o34 : t3 ≤ t4) (_o45 : t4 ≤ t5)
    (hwin : t4 - t1 < RATE_LIMIT_WINDOW)
    (hexp : RATE_LIMIT_WINDOW ≤ t5 - t1)
    (hs1 : handleSubmitP2 i1 false t1 [] = r1)
    (hs2 : handleSubmitP2 i2 false t2 r1.timestamps = r2)
    (hs3 : handleSubmitP2 i3 false t3 r2.timestamps = r3)
    (hs4 : handleSubmitP2 i4 false t4 r3.timestamps = r4)
    (hs5 : handleSubmitP2 i5 false t5 r4.timestamps = r5) :
    (r1.path ≠ SubmitPath.rateLimited ∧ r2.path ≠ SubmitPath.rateLimited ∧
      r3.path ≠ SubmitPath.rateLimited) ∧
    (r4.path = SubmitPath.rateLimited ∧ networkCallsP2 r4.path = 0 ∧
      ∃ m, r4.waitMinutes = some m ∧ 0 < m) ∧
    (r5.path ≠ SubmitPath.rateLimited ∧ r5.path ≠ SubmitPath.rejected) := by
  subst hs1 hs2 hs3 hs4 hs5
  simp only [RATE_LIMIT_WINDOW] at hwin hexp
  have e21 : t2 - t1 < 60000 := by omega
  have e31 : t3 - t1 < 60000 := by omega
  have e32 : t3 - t2 < 60000 := by omega
  have e42 : t4 - t2 < 60000 := by omega
  have e43 : t4 - t3 < 60000 := by omega
  have T1 : (handleSubmitP2 i1 false t1 []).timestamps = [t1] := by
    rw [handleSubmitP2_timestamps _ _ _ h1]
    simp [checkRateLimit, MAX_REQUESTS_PER_WINDOW]
  have T2 : (handleSubmitP2 i2 false t2 [t1]).timestamps = [t1, t2] := by
    rw [handleSubmitP2_timestamps _ _ _ h2]
    simp [checkRateLimit, RATE_LIMIT_WINDOW, MAX_REQUESTS_PER_WINDOW, e21]
  have T3 : (handleSubmitP2 i3 false t3 [t1, t2]).timestamps = [t1, t2, t3] := by
    rw [handleSubmitP2_timestamps _ _ _ h3]
    simp [checkRateLimit, RATE_LIMIT_WINDOW, MAX_REQUESTS_PER_WINDOW, e31, e32]
  have F4 : [t1, t2, t3].filter (fun timestamp => t4 - timestamp < RATE_LIMIT_WINDOW) =
      [t1, t2, t3] := by
    simp [RATE_LIMIT_WINDOW, hwin, e42, e43]
  have B4 : (checkRateLimit t4 [t1, t2, t3]).allowed = false := by
    simp only [checkRateLimit]
    rw [F4, if_pos (by simp [MAX_REQUESTS_PER_WINDOW])]
  have W4 : (checkRateLimit t4 [t1, t2, t3]).waitMinutes =
      some ((RATE_LIMIT_WINDOW - (t4 - t1) + 59999) / 60000) := by
    simp only [checkRateLimit]
    rw [F4, if_pos (by simp [MAX_REQUESTS_PER_WINDOW])]
    simp [List.headD]
  have T4 : (handleSubmitP2 i4 false t4 [t1, t2, t3]).timestamps = [t1, t2, t3] := by
    rw [handleSubmitP2_timestamps _ _ _ h4]
    simp only [checkRateLimit]
    rw [F4, if_pos (by simp [MAX_REQUESTS_PER_WINDOW])]
  have A5 : (checkRateLimit t5 [t1, t2, t3]).allowed = true := by
    refine (checkRateLimit_allowed_of_short t5 [t1, t2, t3] ?_).1
    have hdrop : ¬ (t5 - t1 < RATE_LIMIT_WINDOW) := by
      simp only [RATE_LIMIT_WINDOW]
      omega
    rw [List.filter_cons, if_neg (by simpa using hdrop)]
    have hle := List.length_filter_le
      (fun timestamp => decide (t5 - timestamp < RATE_LIMIT_WINDOW)) [t2, t3]
    simp only [MAX_REQUESTS_PER_WINDOW]
    simp at hle ⊢
    omega
  refine ⟨⟨?_, ?_, ?_⟩, ?_, ?_⟩
  · exact (handleSubmitP2_path_allowed i1 t1 [] h1
      (checkRateLimit_allowed_of_short t1 [] (by simp [MAX_REQUESTS_PER_WINDOW])).1).1
  · rw [T1]
    refine (handleSubmitP2_path_allowed i2 t2 [t1] h2 ?_).1
    refine (checkRateLimit_allowed_of_short t2 [t1] ?_).1
    have := List.length_filter_le
      (fun timestamp => decide (t2 - timestamp < RATE_LIMIT_WINDOW)) [t1]
    simp only [MAX_REQUESTS_PER_WINDOW]
    simp at this ⊢
    omega
  · rw [T1, T2]
    refine (handleSubmitP2_path_allowed i3 t3 [t1, t2] h3 ?_).1
    refine (checkRateLimit_allowed_of_short t3 [t1, t2] ?_).1
    have := List.length_filter_le
      (fun timestamp => decide (t3 - timestamp < RATE_LIMIT_WINDOW)) [t1, t2]
    simp only [MAX_REQUESTS_PER_WINDOW]
    simp at this ⊢
    omega
  · rw [T1, T2, T3]
    obtain ⟨hp4, hw4⟩ := handleSubmitP2_path_blocked i4 t4 [t1, t2, t3] h4 B4
    refine ⟨hp4, by rw [hp4]; rfl, ?_⟩
    refine ⟨(RATE_LIMIT_WINDOW - (t4 - t1) + 59999) / 60000, by rw [hw4, W4], ?_⟩
    simp only [RATE_LIMIT_WINDOW]
    omega
  · rw [T1, T2, T3, T4]
    exact ⟨(handleSubmitP2_path_allowed i5 t5 [t1, t2, t3] h5 A5).1,
      (handleSubmitP2_path_allowed i5 t5 [t1, t2, t3] h5 A5).2⟩

/-- Witness for C2: four submissions at milliseconds 0, 1, 2, 3 and a
fifth at 60000, with concrete inputs. -/
theorem rateLimit_blocks_fourth_submission_witness :
    ((handleSubmitP2 "q one" false 0 []).path ≠ SubmitPath.rateLimited ∧
      (handleSubmitP2 "q two" false 1
        (handleSubmitP2 "q one" false 0 []).timestamps).path ≠ SubmitPath.rateLimited ∧
      (handleSubmitP2 "q three" false 2
        (handleSubmitP2 "q two" false 1
          (handleSubmitP2 "q one" false 0 []).timestamps).timestamps).path ≠
        SubmitPath.rateLimited) ∧
    ((handleSubmitP2 "q four" false 3
        (handleSubmitP2 "q three" false 2
          (handleSubmitP2 "q two" false 1
            (handleSubmitP2 "q one" false 0 []).timestamps).timestamps).timestamps).path =
        SubmitPath.rateLimited ∧
      networkCallsP2 (handleSubmitP2 "q four" false 3
        (handleSubmitP2 "q three" false 2
          (handleSubmitP2 "q two" false 1
            (handleSubmitP2 "q one" false 0 []).timestamps).timestamps).timestamps).path = 0 ∧
      ∃ m, (handleSubmitP2 "q four" false 3
        (handleSubmitP2 "q three" false 2
          (handleSubmitP2 "q two" false 1
            (handleSubmitP2 "q one" false 0 []).timestamps).timestamps).timestamps).waitMinutes =
          some m ∧ 0 < m) ∧
    ((handleSubmitP2 "q five" false 60000
        (handleSubmitP2 "q four" false 3
          (handleSubmitP2 "q three" false 2
            (handleSubmitP2 "q two" false 1
              (handleSubmitP2 "q one" false 0 []).timestamps).timestamps).timestamps).timestamps).path ≠
        SubmitPath.rateLimited ∧
      (handleSubmitP2 "q five" false 60000
        (handleSubmitP2 "q four" false 3
          (handleSubmitP2 "q three" false 2
            (handleSubmitP2 "q two" false 1
              (handleSubmitP2 "q one" false 0 []).timestamps).timestamps).timestamps).timestamps).path ≠
        SubmitPath.rejected) :=
  rateLimit_blocks_fourth_submission "q one" "q two" "q three" "q four" "q five"
    0 1 2 3 60000 _ _ _ _ _
    (by decide) (by decide) (by decide) (by decide) (by decide)
    (by decide) (by decide) (by decide) (by decide) (by decide) (by decide)
    rfl rfl rfl rfl rfl

/-! ## C10: a blocked checkRateLimit call only prunes -/

/-- Claim C10: when `checkRateLimit` blocks a call, the timestamp list is
only pruned of entries older than the window - no new timestamp is
appended (the result is a sublist of the old list) - and consequently any
later call at time `t ≥ now` behaves exactly as if the blocked call had
never happened. -/
theorem checkRateLimit_blocked_only_prunes (now t : Nat) (ts : List Nat)
    (hblk : (checkRateLimit now ts).allowed = false) :
    (checkRateLimit now ts).timestamps =
      ts.filter (fun timestamp => now - timestamp < RATE_LIMIT_WINDOW) ∧
    (checkRateLimit now ts).timestamps.Sublist ts ∧
    (now ≤ t → checkRateLimit t (checkRateLimit now ts).timestamps = checkRateLimit t ts) := by
  have hb : MAX_REQUESTS_PER_WINDOW ≤
      (ts.filter (fun timestamp => now - timestamp < RATE_LIMIT_WINDOW)).length := by
    by_contra hc
    have := (checkRateLimit_allowed_of_short now ts (by omega)).1
    rw [this] at hblk
    exact Bool.noConfusion hblk
  have hts : (checkRateLimit now ts).timestamps =
      ts.filter (fun timestamp => now - timestamp < RATE_LIMIT_WINDOW) := by
    simp only [checkRateLimit]
    rw [if_pos hb]
  refine ⟨hts, ?_, ?_⟩
  · rw [hts]
    exact List.filter_sublist ts
  · intro hle
    have hff : (ts.filter (fun timestamp => now - timestamp < RATE_LIMIT_WINDOW)).filter
        (fun timestamp => t - timestamp < RATE_LIMIT_WINDOW) =
        ts.filter (fun timestamp => t - timestamp < RATE_LIMIT_WINDOW) := by
      rw [List.filter_filter]
      apply List.filter_congr
      intro x _
      by_cases hxt : t - x < RATE_LIMIT_WINDOW
      · have hxn : now - x < RATE_LIMIT_WINDOW := by omega
        simp [hxt, hxn]
      · simp [hxt]
    rw [hts]
    simp only [checkRateLimit]
    rw [hff]

/-- Witness for C10 at the blocked call `checkRateLimit 60 [10, 20, 30]`
followed by a call at time 70. -/
theorem checkRateLimit_blocked_only_prunes_witness :
    (checkRateLimit 60 [10, 20, 30]).timestamps =
      [10, 20, 30].filter (fun timestamp => 60 - timestamp < RATE_LIMIT_WINDOW) ∧
    (checkRateLimit 60 [10, 20, 30]).timestamps.Sublist [10, 20, 30] ∧
    checkRateLimit 70 (checkRateLimit 60 [10, 20, 30]).timestamps =
      checkRateLimit 70 [10, 20, 30] :=
  have h := checkRateLimit_blocked_only_prunes 60 70 [10, 20, 30] (by decide)
  ⟨h.1, h.2.1, h.2.2 (by decide)⟩

/-! ## C9: save/load round trip of a conversation -/

/-- A whole-document update of the row with id `cid` is found again by id,
carrying exactly the new message list (the first row with that id is the
one returned by `find?`, and it was rewritten by the update). -/
theorem findChat_update (store : List ChatHistory) (cid : String) (msgs : List Message)
    (h : ∃ row ∈ store, row.id = cid) :
    ∃ row, findChat (store.map
        (fun r => if r.id = cid then { r with messages := msgs } else r)) cid = some row ∧
      row.messages = msgs := by
  induction store with
  | nil =>
    obtain ⟨row, hm, _⟩ := h
    exact absurd hm (List.not_mem_nil row)
  | cons a rest ih =>
    by_cases ha : a.id = cid
    · refine ⟨{ a with messages := msgs }, ?_, rfl⟩
      unfold findChat
      rw [List.map_cons, if_pos ha]
      exact List.find?_cons_of_pos _ (by simpa using ha)
    · obtain ⟨row, hm, hid⟩ := h
      rcases List.mem_cons.mp hm with rfl | hmem
      · exact absurd hid ha
      · obtain ⟨row', hfind, hmsg⟩ := ih ⟨row, hmem, hid⟩
        refine ⟨row', ?_, hmsg⟩
        unfold findChat
        rw [List.map_cons, if_neg ha]
        rw [List.find?_cons_of_neg _ (by simpa using ha)]
        exact hfind

/-- An inserted row whose generated id is fresh for the store is found
again by that id. -/
theorem findChat_insert (store : List ChatHistory) (row : ChatHistory)
    (h : ∀ r ∈ store, r.id ≠ row.id) :
    findChat (store ++ [row]) row.id = some row := by
  unfold findChat
  rw [List.find?_append]
  have hn : store.find? (fun r => r.id = row.id) = none :=
    List.find?_eq_none.mpr (by intro x hx; simpa using h x hx)
  rw [hn]
  simp [List.find?_cons_of_pos]

/-- Claim C9: a conversation persisted by `saveToHistory` (whole-document
replace of the message list) and retrieved again by its id yields, via
`loadChat`, the same ordered message list with identical content strings -
both for the initial insert (fresh database id) and for every later
update of an existing row. -/
theorem saveToHistory_loadChat_roundtrip (store : List ChatHistory)
    (msgs : List Message) (input userId newId createdAt : String) :
    ((∀ r ∈ store, r.id ≠ newId) →
      ∃ row, findChat (saveToHistory store none msgs input userId newId createdAt).1 newId =
          some row ∧
        loadChat row = msgs ∧
        (loadChat row).map Message.content = msgs.map Message.content) ∧
    (∀ cid, (∃ r ∈ store, r.id = cid) →
      ∃ row, findChat (saveToHistory store (some cid) msgs input userId newId createdAt).1 cid =
          some row ∧
        loadChat row = msgs ∧
        (loadChat row).map Message.content = msgs.map Message.content) := by
  constructor
  · intro hfresh
    refine ⟨{ id := newId, title := deriveTitle input, messages := msgs,
              created_at := createdAt, user_id := userId }, ?_, rfl, rfl⟩
    exact findChat_insert store _ hfresh
  · intro cid hex
    obtain ⟨row', hfind, hmsg⟩ := findChat_update store cid msgs hex
    exact ⟨row', hfind, by simp [loadChat, hmsg], by simp [loadChat, hmsg]⟩

/-- Witness for C9: one insert into an empty store and one update of an
existing row, with a concrete two-message exchange. -/
theorem saveToHistory_loadChat_roundtrip_witness :
    (∃ row, findChat (saveToHistory [] none
        [{ id := "m1", role := "user", content := "what is gst", timestamp := "t0" },
         { id := "m2", role := "assistant", content := "a tax", timestamp := "t1" }]
        "what is gst" "user1" "chat9" "2025-01-01").1 "chat9" = some row ∧
      loadChat row =
        [{ id := "m1", role := "user", content := "what is gst", timestamp := "t0" },
         { id := "m2", role := "assistant", content := "a tax", timestamp := "t1" }] ∧
      (loadChat row).map Message.content =
        [{ id := "m1", role := "user", content := "what is gst", timestamp := "t0" },
         { id := "m2", role := "assistant", content := "a tax", timestamp := "t1" }].map
          Message.content) ∧
    (∃ row, findChat (saveToHistory
        [{ id := "chat1", title := "old", messages := [], created_at := "d0",
           user_id := "user1" }] (some "chat1")
        [{ id := "m1", role := "user", content := "what is gst", timestamp := "t0" },
         { id := "m2", role := "assistant", content := "a tax", timestamp := "t1" }]
        "what is gst" "user1" "chat9" "2025-01-01").1 "chat1" = some row ∧
      loadChat row =
        [{ id := "m1", role := "user", content := "what is gst", timestamp := "t0" },
         { id := "m2", role := "assistant", content := "a tax", timestamp := "t1" }] ∧
      (loadChat row).map Message.content =
        [{ id := "m1", role := "user", content := "what is gst", timestamp := "t0" },
         { id := "m2", role := "assistant", content := "a tax", timestamp := "t1" }].map
          Message.content) :=
  ⟨(saveToHistory_loadChat_roundtrip [] _ "what is gst" "user1" "chat9" "2025-01-01").1
      (by intro r hr; exact absurd hr (List.not_mem_nil r)),
   (saveToHistory_loadChat_roundtrip
      [{ id := "chat1", title := "old", messages := [], created_at := "d0",
         user_id := "user1" }] _ "what is gst" "user1" "chat9" "2025-01-01").2 "chat1"
      ⟨{ id := "chat1", title := "old", messages := [], created_at := "d0",
         user_id := "user1" }, by simp, rfl⟩⟩

/-! ## C5: unusable field schema and the default field set -/

/-- Counterexample to claim C5 as stated: when the schema response does
contain a braced block but `JSON.parse` throws on it (the oracle returns
`none`), the `catch` block of `handleDocumentRequest` aborts the wizard
with an error banner - it does not proceed with `getDefaultFields`.  The
input `\x7boops\x7d` is not valid JSON, so `JSON.parse` throws on it. -/
theorem parse_throw_aborts_wizard :
    wizardFieldsTA "\x7boops\x7d" "contract" (fun _ => none) =
      WizardSetup.aborted "Failed to set up document form. Please try again." ∧
    wizardFieldsTA "\x7boops\x7d" "contract" (fun _ => none) ≠
      WizardSetup.proceeds (getDefaultFields "contract") :=
  ⟨rfl, by decide⟩

/-- Claim C5 as amended: the wizard proceeds with `getDefaultFields` when
the schema response contains no braced block, or when the block parses to
an object with an empty `fields` array (and with the parsed fields when
the array is nonempty); but when `JSON.parse` throws on the block, the
wizard aborts with an error instead of using the defaults. -/
theorem wizardFields_fallback_behaviour (resultText docType : String)
    (jsonParse : String → Option (Option (List DocumentField))) :
    (extractJsonBlock resultText.data = none →
      wizardFieldsTA resultText docType jsonParse =
        WizardSetup.proceeds (getDefaultFields docType)) ∧
    (∀ block, extractJsonBlock resultText.data = some block →
      jsonParse (String.mk block) = some (some []) →
      wizardFieldsTA resultText docType jsonParse =
        WizardSetup.proceeds (getDefaultFields docType)) ∧
    (∀ block, extractJsonBlock resultText.data = some block →
      jsonParse (String.mk block) = none →
      wizardFieldsTA resultText docType jsonParse =
        WizardSetup.aborted "Failed to set up document form. Please try again.") ∧
    (∀ block fields, extractJsonBlock resultText.data = some block →
      jsonParse (String.mk block) = some (some fields) → 0 < fields.length →
      wizardFieldsTA resultText docType jsonParse = WizardSetup.proceeds fields) := by
  refine ⟨?_, ?_, ?_, ?_⟩ <;> intros <;> simp_all [wizardFieldsTA]

/-- Witness for the amended C5: a response with no braces, a response with
an empty parsed field list, and a response whose block fails to parse. -/
theorem wizardFields_fallback_behaviour_witness :
    wizardFieldsTA "no json here" "invoice" (fun _ => some (some [])) =
      WizardSetup.proceeds (getDefaultFields "invoice") ∧
    wizardFieldsTA "x\x7b\x7dy" "invoice" (fun _ => some (some [])) =
      WizardSetup.proceeds (getDefaultFields "invoice") ∧
    wizardFieldsTA "x\x7b\x7dy" "invoice" (fun _ => none) =
      WizardSetup.aborted "Failed to set up document form. Please try again." :=
  ⟨(wizardFields_fallback_behaviour "no json here" "invoice" (fun _ => some (some []))).1 rfl,
   (wizardFields_fallback_behaviour "x\x7b\x7dy" "invoice" (fun _ => some (some []))).2.1
      ['\x7b', '\x7d'] rfl rfl,
   (wizardFields_fallback_behaviour "x\x7b\x7dy" "invoice" (fun _ => none)).2.2.1
      ['\x7b', '\x7d'] rfl rfl⟩

/-! ## C6: email field validation -/

theorem takeWhile_append_all {p : Char → Bool} (a : List Char) (c : Char) (b : List Char)
    (ha : ∀ x ∈ a, p x = true) (hc : p c = false) :
    (a ++ c :: b).takeWhile p = a ∧ (a ++ c :: b).dropWhile p = c :: b := by
  induction a with
  | nil =>
    rw [List.nil_append]
    exact ⟨by rw [List.takeWhile_cons, if_neg (by simp [hc])],
      by rw [List.dropWhile_cons, if_neg (by simp [hc])]⟩
  | cons x xs ih =>
    have hx : p x = true := ha x (by simp)
    obtain ⟨h1, h2⟩ := ih (fun y hy => ha y (by simp [hy]))
    constructor
    · rw [List.cons_append, List.takeWhile_cons, if_pos hx, h1]
    · rw [List.cons_append, List.dropWhile_cons, if_pos hx, h2]

theorem jsTrim_eq_self {l : List Char} (h : ∀ x ∈ l, isJsSpace x = false) :
    jsTrim (String.mk l) = String.mk l := by
  have h1 : l.dropWhile isJsSpace = l := by
    cases l with
    | nil => rfl
    | cons c r => rw [List.dropWhile_cons, if_neg (by simp [h c (by simp)])]
  have h2 : l.reverse.dropWhile isJsSpace = l.reverse := by
    cases hr : l.reverse with
    | nil => rfl
    | cons c r =>
      have hc : c ∈ l := by rw [← List.mem_reverse, hr]; simp
      rw [List.dropWhile_cons, if_neg (by simp [h c hc])]
  show String.mk (((String.mk l).data.dropWhile isJsSpace).reverse.dropWhile
    isJsSpace).reverse = String.mk l
  rw [show (String.mk l).data = l from rfl, h1, h2, List.reverse_reverse]

theorem mem_data_of_mem_jsTrim {c : Char} {s : String} (h : c ∈ (jsTrim s).data) :
    c ∈ s.data := by
  unfold jsTrim at h
  rw [show ∀ l, (String.mk l).data = l from fun _ => rfl] at h
  rw [List.mem_reverse] at h
  have h2 := (@List.dropWhile_sublist Char ((s.data.dropWhile isJsSpace).reverse)
    isJsSpace).subset h
  rw [List.mem_reverse] at h2
  exact (@List.dropWhile_sublist Char s.data isJsSpace).subset h2

theorem emailRegexTest_false_of_no_at {s : String} (h : '@' ∉ s.data) :
    emailRegexTest s = false := by
  have hd : s.data.dropWhile (fun c => c ≠ '@') = [] :=
    List.dropWhile_eq_nil_iff.mpr (by
      intro x hx
      simp only [decide_eq_true_eq]
      exact fun hEq => h (hEq ▸ hx))
  simp only [emailRegexTest]
  rw [hd]

theorem emailRegexTest_true_of_shape (a b : List Char)
    (hA : a ≠ []) (haOK : ∀ x ∈ a, okEmailChar x = true)
    (hbOK : ∀ x ∈ b, okEmailChar x = true)
    (hdot : (b.drop 1).dropLast.contains '.' = true) :
    emailRegexTest (String.mk (a ++ '@' :: b)) = true := by
  have haNe : ∀ x ∈ a, (fun c => decide (c ≠ '@')) x = true := by
    intro x hx
    have hOK := haOK x hx
    simp only [okEmailChar, Bool.and_eq_true, decide_eq_true_eq] at hOK
    simp [hOK.2]
  obtain ⟨hT, hD⟩ := takeWhile_append_all a '@' b haNe (by simp)
  simp only [emailRegexTest]
  simp only [show (String.mk (a ++ '@' :: b)).data = a ++ '@' :: b from rfl, hT, hD]
  simp [hA, List.all_eq_true]
  refine ⟨⟨haOK, hbOK⟩, ?_⟩
  simpa using hdot

/-- Counterexample to claim C6 as stated: the value "jo hn@x.com" contains
exactly one `@` followed by a domain with a dot suffix (the claimed
passing shape), yet `validateForm` records the email validation error for
the field and blocks submission, because the regex also rejects any
whitespace character. -/
theorem email_with_space_counterexample :
    specEmailShape "jo hn@x.com" = true ∧
    (validateForm (fun _ => true) (fun _ => true) [("e", "jo hn@x.com")]
      [{ id := "e", label := "Email", type := FieldType.email, required := true }]).2 = false ∧
    ("e", "Please enter a valid email address") ∈
      (validateForm (fun _ => true) (fun _ => true) [("e", "jo hn@x.com")]
        [{ id := "e", label := "Email", type := FieldType.email, required := true }]).1 := by
  refine ⟨rfl, rfl, ?_⟩
  decide

/-- Claim C6 as amended: for a required email field, a submitted value
lacking `@` always yields a recorded validation error for that field and
`validateForm` returns false (an empty value hits the required check, a
nonempty one the email regex); a value made of a nonempty local part, one
`@` and a domain containing an inner dot - all characters neither
whitespace nor `@` - yields no error for that field (whitespace anywhere
in the value, by contrast, fails the regex even with a well-formed
`@`/domain shape). -/
theorem validateForm_email_field (dateParseOk numberOk : String → Bool)
    (data : List (String × String)) (fields : List DocumentField) (f : DocumentField)
    (hf : f ∈ fields) (hreq : f.required = true) (hty : f.type = FieldType.email) :
    (('@' ∉ ((lookupStr data f.id).getD "").data) →
      (∃ msg, (f.id, msg) ∈ (validateForm dateParseOk numberOk data fields).1) ∧
      (validateForm dateParseOk numberOk data fields).2 = false) ∧
    (∀ a b : List Char,
      lookupStr data f.id = some (String.mk (a ++ '@' :: b)) →
      a ≠ [] → (∀ x ∈ a, okEmailChar x = true) → (∀ x ∈ b, okEmailChar x = true) →
      (b.drop 1).dropLast.contains '.' = true →
      fieldError dateParseOk numberOk data f = none ∧
      ((fields.map DocumentField.id).Nodup →
        ∀ msg, (f.id, msg) ∉ (validateForm dateParseOk numberOk data fields).1)) := by
  constructor
  · intro hat
    have hat' : '@' ∉ (jsTrim ((lookupStr data f.id).getD "")).data :=
      fun hmem => hat (mem_data_of_mem_jsTrim hmem)
    have herr : ∃ msg, fieldError dateParseOk numberOk data f = some msg := by
      simp only [fieldError]
      by_cases hv : jsTrim ((lookupStr data f.id).getD "") = ""
      · rw [if_pos (by simp [hreq, hv])]
        exact ⟨_, rfl⟩
      · rw [if_neg (by simp [hv]), if_pos hv, hty]
        rw [emailRegexTest_false_of_no_at hat']
        exact ⟨_, rfl⟩
    obtain ⟨msg, hmsg⟩ := herr
    have hmem : (f.id, msg) ∈ (validateForm dateParseOk numberOk data fields).1 :=
      List.mem_filterMap.mpr ⟨f, hf, by rw [hmsg]; rfl⟩
    refine ⟨⟨msg, hmem⟩, ?_⟩
    show ((validateForm dateParseOk numberOk data fields).1).isEmpty = false
    rcases hq : (validateForm dateParseOk numberOk data fields).1 with _ | ⟨x, xs⟩
    · rw [hq] at hmem
      exact absurd hmem (List.not_mem_nil _)
    · rfl
  · intro a b hlook hA haOK hbOK hdot
    have hval : (lookupStr data f.id).getD "" = String.mk (a ++ '@' :: b) := by
      rw [hlook]; rfl
    have hnospace : ∀ x ∈ a ++ '@' :: b, isJsSpace x = false := by
      intro x hx
      rcases List.mem_append.mp hx with hxa | hxb
      · have := haOK x hxa
        simp only [okEmailChar, Bool.and_eq_true, Bool.not_eq_true', decide_eq_true_eq] at this
        exact this.1
      · rcases List.mem_cons.mp hxb with rfl | hxb'
        · rfl
        · have := hbOK x hxb'
          simp only [okEmailChar, Bool.and_eq_true, Bool.not_eq_true', decide_eq_true_eq] at this
          exact this.1
    have htrim : jsTrim ((lookupStr data f.id).getD "") = String.mk (a ++ '@' :: b) := by
      rw [hval]
      exact jsTrim_eq_self hnospace
    have hne : String.mk (a ++ '@' :: b) ≠ "" := by
      intro hc
      have : (a ++ '@' :: b) = [] := congrArg String.data hc
      simp at this
    have hnone : fieldError dateParseOk numberOk data f = none := by
      simp only [fieldError]
      rw [htrim]
      rw [if_neg (by simp [hne]), if_pos hne, hty]
      rw [emailRegexTest_true_of_shape a b hA haOK hbOK hdot]
      rfl
    refine ⟨hnone, ?_⟩
    intro hnodup msg hmem
    obtain ⟨g, hg, hgeq⟩ := List.mem_filterMap.mp hmem
    rcases ho : fieldError dateParseOk numberOk data g with _ | m
    · rw [ho] at hgeq
      exact Option.noConfusion hgeq
    · rw [ho] at hgeq
      have hpair : (g.id, m) = (f.id, msg) := Option.some.inj hgeq
      have hid : g.id = f.id := congrArg Prod.fst hpair
      have : g = f := List.inj_on_of_nodup_map hnodup hg hf hid
      rw [this, hnone] at ho
      exact Option.noConfusion ho

/-- Witness for the amended C6: a required email field with the value
"nodomain" (no `@`) is rejected, and with the value "john@x.com" passes
with no recorded error. -/
theorem validateForm_email_field_witness :
    ((∃ msg, ("e", msg) ∈ (validateForm (fun _ => true) (fun _ => true) [("e", "nodomain")]
        [{ id := "e", label := "Email", type := FieldType.email, required := true }]).1) ∧
      (validateForm (fun _ => true) (fun _ => true) [("e", "nodomain")]
        [{ id := "e", label := "Email", type := FieldType.email, required := true }]).2 =
        false) ∧
    (fieldError (fun _ => true) (fun _ => true) [("e", "john@x.com")]
        { id := "e", label := "Email", type := FieldType.email, required := true } = none ∧
      ∀ msg, ("e", msg) ∉ (validateForm (fun _ => true) (fun _ => true) [("e", "john@x.com")]
        [{ id := "e", label := "Email", type := FieldType.email, required := true }]).1) :=
  ⟨(validateForm_email_field (fun _ => true) (fun _ => true) [("e", "nodomain")]
      [{ id := "e", label := "Email", type := FieldType.email, required := true }]
      { id := "e", label := "Email", type := FieldType.email, required := true }
      (by simp) rfl rfl).1 (by decide),
   have h2 := (validateForm_email_field (fun _ => true) (fun _ => true) [("e", "john@x.com")]
      [{ id := "e", label := "Email", type := FieldType.email, required := true }]
      { id := "e", label := "Email", type := FieldType.email, required := true }
      (by simp) rfl rfl).2 "john".data "x.com".data rfl (by decide) (by decide) (by decide)
      (by decide)
   ⟨h2.1, h2.2 (by decide)⟩⟩

/-! ## C4: fallback document generation -/

theorem value_infix_paragraphs {v : String} (hnl : '\n' ∉ v.data) :
    v.data <:+: (paragraphs v).data := by
  have hp : paragraphs v = "<p>" ++ String.mk v.data ++ "</p>" ++ "" := by
    unfold paragraphs
    rw [splitNl_eq_self hnl]
    rfl
  rw [hp]
  exact ⟨"<p>".data, "</p>".data ++ [], by simp [String.data_append]⟩

theorem value_infix_fallbackSection (k : String) {v : String} (hnl : '\n' ∉ v.data) :
    v.data <:+: (fallbackSection k v).data := by
  unfold fallbackSection
  exact infix_data_of_append_append _ _ (value_infix_paragraphs hnl)

/-- Counterexample to claim C4 as stated: with the single submitted field
value "Date", the AI failure path does return the fallback template, but
the value occurs 4 times in the produced HTML (once as the field
paragraph, three times in the fixed template text "Date: ...") - not
exactly once. -/
theorem fallback_value_not_exactly_once :
    generateDocument (Except.error ()) [("note", "Date")] "receipt" "January 1, 2025" =
      generateFallbackDocument [("note", "Date")] "receipt" "January 1, 2025" ∧
    countOccs "Date".data
      (generateFallbackDocument [("note", "Date")] "receipt" "January 1, 2025").data = 4 ∧
    ¬ countOccs "Date".data
      (generateFallbackDocument [("note", "Date")] "receipt" "January 1, 2025").data = 1 := by
  refine ⟨rfl, by decide, by decide⟩

/-- Claim C4 as amended: if the AI generation call fails, `generateDocument`
returns the deterministic fallback template, and the produced HTML
contains every submitted field entry whose value is non-empty and free of
newlines at least once (inside its own paragraph element); values may
additionally collide with the fixed template text, so "exactly once" does
not hold in general, and empty values are filtered out entirely. -/
theorem generateDocument_fallback_contains_values
    (data : List (String × String)) (docType currentDate k v : String)
    (hmem : (k, v) ∈ data) (hne : v ≠ "") (hnl : '\n' ∉ v.data) :
    generateDocument (Except.error ()) data docType currentDate =
      generateFallbackDocument data docType currentDate ∧
    0 < countOccs v.data (generateFallbackDocument data docType currentDate).data := by
  refine ⟨rfl, ?_⟩
  have hvne : v.data ≠ [] := by
    intro hc
    exact hne (@String.ext v "" hc)
  apply countOccs_pos_of_infix hvne
  have h2 : fallbackSection k v ∈
      (data.filter (fun kv => kv.2 ≠ "")).map (fun kv => fallbackSection kv.1 kv.2) :=
    List.mem_map.mpr ⟨(k, v), List.mem_filter.mpr ⟨hmem, by simp [hne]⟩, rfl⟩
  have h3 := (value_infix_fallbackSection k hnl).trans (infix_joinStr h2)
  unfold generateFallbackDocument
  exact infix_data_of_append_append _ _ h3

/-- Witness for the amended C4 at a concrete two-field form. -/
theorem generateDocument_fallback_contains_values_witness :
    generateDocument (Except.error ()) [("clientName", "Acme Traders"), ("amount", "1200")]
      "invoice" "January 1, 2025" =
      generateFallbackDocument [("clientName", "Acme Traders"), ("amount", "1200")]
        "invoice" "January 1, 2025" ∧
    0 < countOccs "Acme Traders".data
      (generateFallbackDocument [("clientName", "Acme Traders"), ("amount", "1200")]
        "invoice" "January 1, 2025").data :=
  generateDocument_fallback_contains_values
    [("clientName", "Acme Traders"), ("amount", "1200")] "invoice" "January 1, 2025"
    "clientName" "Acme Traders" (by decide) (by decide) (by decide)

end Finacco
